import Mathlib

/-
  Verification development for the rust-vm repository: a 16-bit fetch-decode-execute
  virtual CPU with a pluggable byte-addressable memory bus, a register bank,
  a per-instruction trace buffer and a trace-to-field-element commitment pipeline.

  Shallow embedding conventions:
  * u16 / u8 machine integers are modelled as Nat; wrap-around and casts are made
    explicit with % 2^16 / % 2^8 at the operations where the source performs
    16-bit / 8-bit arithmetic.
  * fallible Rust functions returning Result<T, VMError> become Except VMError T;
    functions whose Rust body can panic (unwrap / expect / out-of-bounds indexing /
    checked arithmetic with expect) return an outcome type with an explicit
    panicked constructor, or Option where none marks the panic.
  * &mut self methods become explicit state passing: they take and return the state.
  * console printing and log-file emission (println!, _write_logs) are pure I/O
    with no effect on VM state and are not modelled.
-/

/--
Error kinds of the VM, from src/error.rs.  The source enum lists OutOfBounds,
UnknownRegister, Halted, MemoryReadError, OpcodeDoesNotExist, AddInstructionFail,
CopyInstructionFail and an Io wrapper.  `Register::inc_program_counter` in
src/register.rs additionally constructs `VMError::Overflow` (the variant is named
by the code and by the spec's error list, though it is absent from the enum as
shipped), so it is included here.  The Io wrapper carries an external
std::io::Error, is never constructed by any modelled code path, and is omitted.
-/
inductive VMError where
  | OutOfBounds
  | UnknownRegister
  | Halted
  | MemoryReadError
  | OpcodeDoesNotExist
  | AddInstructionFail
  | CopyInstructionFail
  | Overflow
  deriving DecidableEq

/-- Register identities, from src/register.rs (RegisterId, repr(u8), discriminants 0..9). -/
inductive RegisterId where
  | RR0
  | RR1
  | RR2
  | RR3
  | RSP
  | RPC
  | RBP
  | RFLAGS
  | RIR
  | RIM
  deriving DecidableEq

/-- Discriminant of a RegisterId (`RegisterId::id`, i.e. `*self as u8`). -/
def RegisterId.id : RegisterId → Nat
  | .RR0 => 0
  | .RR1 => 1
  | .RR2 => 2
  | .RR3 => 3
  | .RSP => 4
  | .RPC => 5
  | .RBP => 6
  | .RFLAGS => 7
  | .RIR => 8
  | .RIM => 9

/-- A register: an identity paired with a 16-bit value (src/register.rs). -/
structure Register where
  id : RegisterId
  value : Nat
  deriving DecidableEq

/-- MAX_REGS constant from src/register.rs. -/
def MAX_REGS : Nat := 8

/-- START_ADDRESS constant from src/constants.rs (0x100, the program load origin). -/
def START_ADDRESS : Nat := 0x100

/--
The register bank's map from small integer register ids to registers
(HashMap<u8, Register> in src/register.rs), modelled as an association list.
The maps built by the code have pairwise distinct keys; findReg returns the
first (hence unique) binding, updateReg rewrites the bindings of a key in place,
mirroring HashMap::get / get_mut followed by assignment through the reference
(neither inserts nor removes keys).
-/
abbrev RegMap := List (Nat × Register)

/-- Lookup of a register id in the map (HashMap::get). -/
def findReg : RegMap → Nat → Option Register
  | [], _ => none
  | (k, r) :: t, n => if k = n then some r else findReg t n

/-- In-place overwrite of the register bound to a key (assignment through get_mut). -/
def updateReg : RegMap → Nat → Register → RegMap
  | [], _, _ => []
  | (k, r0) :: t, n, r =>
      if k = n then (n, r) :: updateReg t n r else (k, r0) :: updateReg t n r

/--
RegisterBank::new from src/register.rs: the nine entries inserted at
construction, in source order.  RR0..RSP, RBP, RFLAGS and RIR start at 0,
RPC starts at START_ADDRESS.  Note the source constructs no entry for RIM.
-/
def RegisterBank.new : RegMap :=
  [ (RegisterId.RR0.id, ⟨RegisterId.RR0, 0x00⟩),
    (RegisterId.RR1.id, ⟨RegisterId.RR1, 0x00⟩),
    (RegisterId.RR2.id, ⟨RegisterId.RR2, 0x00⟩),
    (RegisterId.RR3.id, ⟨RegisterId.RR3, 0x00⟩),
    (RegisterId.RSP.id, ⟨RegisterId.RSP, 0x00⟩),
    (RegisterId.RPC.id, ⟨RegisterId.RPC, START_ADDRESS⟩),
    (RegisterId.RBP.id, ⟨RegisterId.RBP, 0x00⟩),
    (RegisterId.RFLAGS.id, ⟨RegisterId.RFLAGS, 0x00⟩),
    (RegisterId.RIR.id, ⟨RegisterId.RIR, 0x00⟩) ]

/-- RegisterBank::get_register_read_only: copy out a register or fail. -/
def get_register_read_only (b : RegMap) (name : Nat) : Except VMError Register :=
  match findReg b name with
  | some r => .ok r
  | none => .error .UnknownRegister

/--
Linear byte memory from src/memory.rs.  The Vec<u8> of length size is modelled
as a total function from addresses to byte values together with the size; reads
out of range yield none exactly as Vec::get does, because the vector's length
always equals size.
-/
structure LinearMemory where
  bytes : Nat → Nat
  size : Nat

/-- LinearMemory::new: n zero bytes. -/
def LinearMemory.new (n : Nat) : LinearMemory :=
  ⟨fun _ => 0, n⟩

/-- LinearMemory::read: Vec::get, absent iff the address is out of range. -/
def LinearMemory.read (m : LinearMemory) (addr : Nat) : Option Nat :=
  if addr < m.size then some (m.bytes addr) else none

/--
LinearMemory::write: bounds-checked single-byte store; fails with OutOfBounds
without side effect when addr is not below size.  The stored value is a u8 in
the source; the cast is modelled by reducing mod 256.
-/
def LinearMemory.write (m : LinearMemory) (addr value : Nat) :
    Except VMError LinearMemory :=
  if addr < m.size then
    .ok ⟨fun i => if i = addr then value % 256 else m.bytes i, m.size⟩
  else
    .error .OutOfBounds

/--
BusDevice::read2 from src/bus.rs: little-endian 16-bit read composed from two
byte reads at addr and addr + 1; absent if either byte read is absent.
addr is a u16, so addr + 1 is computed mod 2^16.
-/
def read2 (m : LinearMemory) (addr : Nat) : Option Nat :=
  match m.read addr, m.read ((addr + 1) % 65536) with
  | some x0, some x1 => some (x0 ||| x1 <<< 8)
  | _, _ => none

/--
BusDevice::write2 from src/bus.rs: write the low byte at addr, then the high
byte at addr + 1 (mod 2^16, as addr is u16); the first failing byte write
short-circuits, so the error is returned with the state mutated only by the
byte writes already committed.  The first component is the returned error, if
any; the second is the memory afterwards.  (The source additionally re-reads
the written word purely to println it; that read cannot fail after two
successful writes and has no effect on memory, so it is not modelled.)
-/
def write2 (m : LinearMemory) (addr value : Nat) : Option VMError × LinearMemory :=
  let low_byte := value % 256
  let high_byte := value / 256 % 256
  match m.write addr low_byte with
  | .error e => (some e, m)
  | .ok m1 =>
    match m1.write ((addr + 1) % 65536) high_byte with
    | .error e => (some e, m1)
    | .ok m2 => (none, m2)

/-- Opcode enumeration from src/vm.rs. -/
inductive Opcode where
  | HALT
  | COPY
  | LOAD
  | WRITE
  | ADD
  | LOAD_IMM
  | STORE_OUT
  deriving DecidableEq

/-- Opcode::try_from over the raw high nibble: the closed set 0..6, otherwise an error. -/
def Opcode.tryFrom (value : Nat) : Except VMError Opcode :=
  match value with
  | 0 => .ok .HALT
  | 1 => .ok .COPY
  | 2 => .ok .LOAD
  | 3 => .ok .WRITE
  | 4 => .ok .ADD
  | 5 => .ok .LOAD_IMM
  | 6 => .ok .STORE_OUT
  | _ => .error .OpcodeDoesNotExist

/-- One recorded trace entry (struct TraceEntry in src/vm.rs). -/
structure TraceEntry where
  pc : Nat
  opcode : Opcode
  dst : Nat
  src : Nat
  imm : Nat
  registers : RegMap
  deriving DecidableEq

/--
The VM state from src/vm.rs.  The zk_output_enabled flag only gates the
I/O-side commitment dump performed at HALT (via &self, mutating no VM state);
it is false in every modelled run and is not carried in the state.
-/
structure VM where
  registers : RegMap
  memory : LinearMemory
  halted : Bool
  trace_enabled : Bool
  trace_buffer : List TraceEntry

/-- VM::new / VM::default: fresh bank, zero-sized memory, not halted, tracing off. -/
def VM.new : VM :=
  { registers := RegisterBank.new
    memory := LinearMemory.new 0
    halted := false
    trace_enabled := false
    trace_buffer := [] }

/--
Outcome of a fallible, possibly-panicking VM step: normal completion with the
new state, an error returned to the caller together with the state as mutated
so far, or a Rust panic (unwrap / expect / out-of-bounds index).
-/
inductive ExecOut where
  | panicked
  | fail (e : VMError) (s : VM)
  | done (s : VM)

/--
VM::resolve_register_or_immediate: if the field names the reserved immediate
register (RIM) and the immediate nibble is nonzero, overwrite that register
with the immediate before use; otherwise return a copy of the register.
Returns the resolved register copy and the register bank afterwards.
-/
def resolve_register_or_immediate (b : RegMap) (reg_i imm_value : Nat) :
    Except VMError (Register × RegMap) :=
  if reg_i = RegisterId.RIM.id ∧ imm_value ≠ 0 then
    match findReg b reg_i with
    | some tmp => .ok (⟨tmp.id, imm_value⟩, updateReg b reg_i ⟨tmp.id, imm_value⟩)
    | none => .error .UnknownRegister
  else
    match findReg b reg_i with
    | some r => .ok (r, b)
    | none => .error .UnknownRegister

/--
VM::trace: snapshot the current RPC value, the decoded fields and a full copy
of the register map, and append the entry to the trace buffer.  The source
unwraps the RPC lookup, so a missing RPC is a panic (none).
-/
def traceVM (s : VM) (opcode : Opcode) (dst src imm : Nat) : Option VM :=
  match findReg s.registers RegisterId.RPC.id with
  | none => none
  | some pcReg =>
      some { s with trace_buffer :=
        (s.trace_buffer ++ [⟨pcReg.value, opcode, dst, src, imm, s.registers⟩]) }

/-- VMOperations::halt: set the halted flag (log emission and the optional zk dump are I/O). -/
def vmHalt (s : VM) : ExecOut :=
  .done { s with halted := true }

/-- VMOperations::write: 16-bit store to the address in the destination register; on error halt. -/
def vmWrite (s : VM) (source_reg destination_reg : Register) : ExecOut :=
  let r := write2 s.memory destination_reg.value source_reg.value
  .done { s with memory := r.2, halted := r.1.isSome || s.halted }

/-- VMOperations::copy: destination register receives the source register's value (lookup unwrapped). -/
def vmCopy (s : VM) (source_reg destination_reg : Register) : ExecOut :=
  match findReg s.registers destination_reg.id.id with
  | none => .panicked
  | some dest =>
      .done { s with registers :=
        (updateReg s.registers destination_reg.id.id ⟨dest.id, source_reg.value⟩) }

/-- VMOperations::add: checked 16-bit addition; overflow is a panic via expect. -/
def vmAdd (s : VM) (source_reg destination_reg : Register) : ExecOut :=
  if source_reg.value + destination_reg.value < 65536 then
    match findReg s.registers destination_reg.id.id with
    | none => .panicked
    | some dest =>
        .done { s with registers :=
          (updateReg s.registers destination_reg.id.id
            ⟨dest.id, source_reg.value + destination_reg.value⟩) }
  else .panicked

/-- VMOperations::load: 16-bit read at the address in the source register; on absent read halt. -/
def vmLoad (s : VM) (source_reg destination_reg : Register) : ExecOut :=
  match read2 s.memory source_reg.value with
  | some val =>
      match findReg s.registers destination_reg.id.id with
      | none => .panicked
      | some dest =>
          .done { s with registers :=
            (updateReg s.registers destination_reg.id.id ⟨dest.id, val⟩) }
  | none => .done { s with halted := true }

/-- VMOperations::store_out: 16-bit store of the source register's value at START_ADDRESS; on error halt. -/
def vmStoreOut (s : VM) (source_reg : Register) : ExecOut :=
  let r := write2 s.memory START_ADDRESS source_reg.value
  .done { s with memory := r.2, halted := r.1.isSome || s.halted }

/-- The opcode dispatcher of VM::execute_instruction. -/
def dispatchOpcode (opcode : Opcode) (s : VM) (src_reg dest_reg : Register) : ExecOut :=
  match opcode with
  | .HALT => vmHalt s
  | .WRITE => vmWrite s src_reg dest_reg
  | .COPY => vmCopy s src_reg dest_reg
  | .ADD => vmAdd s src_reg dest_reg
  | .LOAD => vmLoad s src_reg dest_reg
  | .LOAD_IMM => .done s
  | .STORE_OUT => vmStoreOut s src_reg

/--
VM::execute_instruction: decode the 16-bit word (high nibble cast to u8 then
mapped to an opcode, then the three 4-bit fields), trace if enabled, resolve
the destination and source fields, and dispatch.
-/
def execute_instruction (s : VM) (instruction : Nat) : ExecOut :=
  match Opcode.tryFrom (instruction >>> 12 % 256) with
  | .error e => .fail e s
  | .ok opcode =>
    let dest_reg_i := (instruction &&& 0x0F00) >>> 8
    let source_reg_i := (instruction &&& 0x00F0) >>> 4
    let immediate_value := instruction &&& 0x000F
    match (if s.trace_enabled then
             traceVM s opcode dest_reg_i source_reg_i immediate_value
           else some s) with
    | none => .panicked
    | some s1 =>
      match resolve_register_or_immediate s1.registers dest_reg_i immediate_value with
      | .error e => .fail e s1
      | .ok (dest_reg, b1) =>
        let s2 := { s1 with registers := b1 }
        match resolve_register_or_immediate s2.registers source_reg_i immediate_value with
        | .error e => .fail e s2
        | .ok (src_reg, b2) =>
          let s3 := { s2 with registers := b2 }
          dispatchOpcode opcode s3 src_reg dest_reg

/--
The tail of VM::tick: `if let Err(error) = self.execute_instruction(raw) {
self.halted = true; return Err(error); }` — an error returned by
execute_instruction sets the halted flag before being propagated; other
outcomes pass through.
-/
def execWrap (t : VM) (raw : Nat) : ExecOut :=
  match execute_instruction t raw with
  | .fail e s3 => .fail e { s3 with halted := true }
  | out => out

/--
VM::tick: refuse when halted; read RPC; fetch the 16-bit word at that address
(the source unwraps the read, so an absent word is a panic); store it into RIR;
advance RPC by 2 with checked addition (overflow is returned as an error
without halting, exactly as the ? operator propagates it); then execute,
halting on an execution error (execWrap).
-/
def tick (s : VM) : ExecOut :=
  if s.halted then .fail .Halted s
  else
    match findReg s.registers RegisterId.RPC.id with
    | none => .fail .UnknownRegister s
    | some pcReg =>
      match read2 s.memory pcReg.value with
      | none => .panicked
      | some raw =>
        match findReg s.registers RegisterId.RIR.id with
        | none => .fail .UnknownRegister s
        | some irReg =>
          let s1 := { s with registers :=
            (updateReg s.registers RegisterId.RIR.id ⟨irReg.id, raw⟩) }
          match findReg s1.registers RegisterId.RPC.id with
          | none => .fail .UnknownRegister s1
          | some pcReg2 =>
            if pcReg2.value + 2 < 65536 then
              execWrap { s1 with registers :=
                (updateReg s1.registers RegisterId.RPC.id ⟨pcReg2.id, pcReg2.value + 2⟩) } raw
            else .fail .Overflow s1

/--
One iteration of the driver loop in start_vm (src/lib.rs): tick, keeping the
state reached (the loop breaks on an error and otherwise re-tests halted; a
panic never returns a state, and no modelled run panics).
-/
def stepVM (s : VM) : VM :=
  match tick s with
  | .done s' => s'
  | .fail _ s' => s'
  | .panicked => s

/-- Run n iterations of the driver loop. -/
def runSteps : Nat → VM → VM
  | 0, s => s
  | n + 1, s => runSteps n (stepVM s)

/-- utils::instruction_builder: mask each field to 4 bits and pack opcode/dest/source/immediate. -/
def instruction_builder (opcode dest source immediate : Nat) : Nat :=
  (opcode &&& 0xF) <<< 12 ||| (dest &&& 0xF) <<< 8 ||| (source &&& 0xF) <<< 4 |||
    (immediate &&& 0xF)

/-- utils::build_simple_program: the six-word demonstration program. -/
def build_simple_program : List Nat :=
  [ instruction_builder 0x05 0x06 0x00 0x05,
    instruction_builder 0x01 0x00 0x06 0x00,
    instruction_builder 0x05 0x06 0x00 0x03,
    instruction_builder 0x01 0x01 0x06 0x00,
    instruction_builder 0x04 0x00 0x01 0x00,
    instruction_builder 0x06 0x00 0x00 0x00 ]

/--
The program-loading loop of start_vm (src/lib.rs): word i is written with
write2 at address 2 * i + START_ADDRESS; a write error is only printed, the
loop continues with the memory as mutated.
-/
def loadProgram : LinearMemory → List Nat → Nat → LinearMemory
  | m, [], _ => m
  | m, w :: t, i => loadProgram (write2 m (2 * i + START_ADDRESS) w).2 t (i + 1)

/--
The VM as configured by start_vm just before the driver loop: fresh bank,
5000-byte memory holding the demonstration program at the load origin,
tracing enabled.
-/
def loadedVM : VM :=
  { registers := RegisterBank.new
    memory := loadProgram (LinearMemory.new 5000) build_simple_program 0
    halted := false
    trace_enabled := true
    trace_buffer := [] }

/--
Modelled from the spec: the constant BN254_MODULUS is imported by src/zk.rs
from src/constants.rs but no definition of it appears under src.  Per the spec
it is the target prime field's modulus, a ~254-bit prime (the BN254 scalar
field, whose standard modulus is this value).
-/
def BN254_MODULUS : Nat :=
  21888242871839275222246405745257275088548364400416034343698204186575808495617

/--
Sha256Hash::__sha256_to_field from src/zk.rs: reduce the digest, read as a
big-endian unsigned integer, modulo BN254_MODULUS; Fr::from_be_bytes_mod_order
then reduces the re-encoded bytes modulo the field order once more.
-/
def __sha256_to_field (sha256 : Nat) : Nat :=
  (sha256 % BN254_MODULUS) % BN254_MODULUS

/--
The register-snapshot gathering step of VM::_parse_private_inputs: a [0u16; 7]
array is filled by assigning reg_array[idx] = value for every (idx, register)
in the trace entry's snapshot; an index not below 7 is an out-of-bounds panic,
modelled as none.
-/
def gatherRegArray (registers : RegMap) : Option (List Nat) :=
  registers.foldl
    (fun acc p =>
      match acc with
      | none => none
      | some arr => if p.1 < 7 then some (arr.set p.1 p.2.value) else none)
    (some (List.replicate 7 0))

/-- Projection: did the outcome panic? -/
def ExecOut.isPanicked : ExecOut → Bool
  | .panicked => true
  | _ => false

/-- Projection: the error and the halted flag of the state carried by a fail outcome. -/
def ExecOut.failInfo : ExecOut → Option (VMError × Bool)
  | .fail e s => some (e, s.halted)
  | _ => none

/-- Projection: the state carried by a done or fail outcome (VM.new for a panic). -/
def ExecOut.outState : ExecOut → VM
  | .done s => s
  | .fail _ s => s
  | .panicked => VM.new

/-- Projection: the recorded program-counter values of the outcome state's trace buffer. -/
def ExecOut.tracePCList (o : ExecOut) : List Nat :=
  o.outState.trace_buffer.map TraceEntry.pc

/--
The outcome carries a state (normal completion or a returned error) whose
trace buffer is exactly buf; a panic carries no state.
-/
def ExecOut.stateTraceIs (o : ExecOut) (buf : List TraceEntry) : Prop :=
  match o with
  | .done s' => s'.trace_buffer = buf
  | .fail _ s' => s'.trace_buffer = buf
  | .panicked => True

/-- Projection: the error produced by a read-only register lookup, if any. -/
def lookupErr (b : RegMap) (n : Nat) : Option VMError :=
  match get_register_read_only b n with
  | .ok _ => none
  | .error e => some e

/-- Projection: the error produced by operand resolution, if any. -/
def resolveErr (b : RegMap) (reg_i imm_value : Nat) : Option VMError :=
  match resolve_register_or_immediate b reg_i imm_value with
  | .ok _ => none
  | .error e => some e

/--
A VM state whose program counter sits two bytes below the top of the 16-bit
address space, over a memory large enough that the fetch succeeds: the
program-counter advance must then fail with Overflow.
-/
def overflowVM : VM :=
  { registers := updateReg RegisterBank.new RegisterId.RPC.id ⟨RegisterId.RPC, 65534⟩
    memory := LinearMemory.new 65536
    halted := false
    trace_enabled := false
    trace_buffer := [] }


/-- Disjoint bit ranges: a bitwise or of a value below 2 ^ n with a value shifted left by n is their sum. -/
theorem lor_shiftLeft_eq_add (n : Nat) :
    ∀ x0 x1 : Nat, x0 < 2 ^ n → x0 ||| x1 <<< n = x0 + x1 <<< n := by
  induction n with
  | zero =>
      intro x0 x1 h
      interval_cases x0
      simp
  | succ n ih =>
      intro x0 x1 h
      have hsh : x1 <<< (n + 1) = 2 * (x1 <<< n) := Nat.shiftLeft_succ x1 n
      have hdiv : (x0 ||| x1 <<< (n + 1)) / 2 = x0 / 2 ||| x1 <<< n := by
        rw [Nat.or_div_two, hsh, Nat.mul_div_cancel_left _ (by norm_num : (0 : Nat) < 2)]
      have hmod : (x0 ||| x1 <<< (n + 1)) % 2 = x0 % 2 := by
        have hb := Nat.testBit_lor x0 (x1 <<< (n + 1)) 0
        rw [Nat.testBit_zero, Nat.testBit_zero, Nat.testBit_zero] at hb
        have heven : (x1 <<< (n + 1)) % 2 = 0 := by omega
        rcases Nat.mod_two_eq_zero_or_one x0 with h2 | h2 <;>
          rcases Nat.mod_two_eq_zero_or_one (x0 ||| x1 <<< (n + 1)) with h3 | h3 <;>
          simp [h2, h3, heven] at hb ⊢
      have hih : x0 / 2 ||| x1 <<< n = x0 / 2 + x1 <<< n := by
        apply ih
        have : 2 ^ (n + 1) = 2 * 2 ^ n := by ring
        omega
      have hrec : x0 ||| x1 <<< (n + 1) =
          2 * ((x0 ||| x1 <<< (n + 1)) / 2) + (x0 ||| x1 <<< (n + 1)) % 2 := by omega
      rw [hdiv, hmod, hih] at hrec
      omega

/-- Updating one register id leaves lookups of any other id unchanged. -/
theorem findReg_updateReg_ne {b : RegMap} {k n : Nat} {r : Register} (h : k ≠ n) :
    findReg (updateReg b n r) k = findReg b k := by
  induction b with
  | nil => rfl
  | cons p t ih =>
      obtain ⟨k0, r0⟩ := p
      by_cases hp : k0 = n
      · rw [updateReg, if_pos hp, findReg, findReg,
          if_neg (show ¬n = k by omega), if_neg (show ¬k0 = k by omega)]
        exact ih
      · rw [updateReg, if_neg hp, findReg, findReg]
        by_cases hk : k0 = k
        · rw [if_pos hk, if_pos hk]
        · rw [if_neg hk, if_neg hk]
          exact ih

/-- Updating a bound register id makes lookups of that id return the new register. -/
theorem findReg_updateReg_self {b : RegMap} {n : Nat} {x r : Register}
    (h : findReg b n = some x) : findReg (updateReg b n r) n = some r := by
  induction b with
  | nil => simp [findReg] at h
  | cons p t ih =>
      obtain ⟨k0, r0⟩ := p
      by_cases hp : k0 = n
      · rw [updateReg, if_pos hp, findReg, if_pos rfl]
      · rw [findReg, if_neg hp] at h
        rw [updateReg, if_neg hp, findReg, if_neg hp]
        exact ih h

/-- Claim C1: the register bank built by RegisterBank::new binds the nine ids 0..8 but omits RIM (id 9), whose lookup fails with UnknownRegister even though RIM belongs to the fixed enumerated register set. -/
theorem registerBank_construction_omits_RIM :
    lookupErr RegisterBank.new RegisterId.RIM.id = some VMError.UnknownRegister ∧
    RegisterId.RIM.id = 9 ∧
    ((List.range 9).all fun i => (lookupErr RegisterBank.new i).isNone) = true := by
  decide

/-- Claim C2 (counterexample): the demonstration program does not halt the VM in five ticks, and the word left at the fixed output address after the run is not 8. -/
theorem simple_program_five_tick_claim_false :
    (runSteps 5 loadedVM).halted = false ∧
    read2 (runSteps 7 loadedVM).memory START_ADDRESS ≠ some 8 := by
  decide

/-- Claim C2 (amended): the demonstration program halts the VM after exactly seven ticks (the seventh executes a HALT decoded from zeroed memory past the program) and leaves the fixed output address holding 0, because the program addresses the immediate register as id 6 while the reserved immediate id is 9, so the immediates 5 and 3 are never loaded. -/
theorem simple_program_halts_in_seven_ticks_storing_zero :
    (runSteps 6 loadedVM).halted = false ∧
    (runSteps 7 loadedVM).halted = true ∧
    read2 (runSteps 7 loadedVM).memory START_ADDRESS = some 0 := by
  decide

/-- Claim C3: operand resolution of a field naming the reserved immediate register id on the bank built by RegisterBank::new fails with UnknownRegister for a nonzero immediate nibble and for a zero one alike, because the bank holds no RIM entry; no register value is ever overwritten with the immediate. -/
theorem resolve_immediate_register_lookup_fails :
    resolveErr RegisterBank.new RegisterId.RIM.id 5 = some VMError.UnknownRegister ∧
    resolveErr RegisterBank.new RegisterId.RIM.id 0 = some VMError.UnknownRegister := by
  decide

/-- Claim C6: on a VM whose memory cannot serve the fetch (the freshly constructed VM has a zero-sized memory and RPC at the load origin), tick panics through Option::unwrap instead of returning the typed fatal memory-read error. -/
theorem tick_fetch_failure_panics :
    read2 VM.new.memory START_ADDRESS = none ∧
    (tick VM.new).isPanicked = true := by
  decide

/-- Claim C7: gathering the fixed-size register snapshot into the [0u16; 7] array is an out-of-bounds access for the register bank the VM actually snapshots (ids 7 and 8 are bound), and in the traced demonstration run every accumulated trace entry's snapshot makes the gather fail. -/
theorem gather_register_snapshot_out_of_bounds :
    gatherRegArray RegisterBank.new = none ∧
    (runSteps 7 loadedVM).trace_buffer ≠ [] ∧
    ((runSteps 7 loadedVM).trace_buffer.all
      fun e => (gatherRegArray e.registers).isNone) = true := by
  decide

/-- Claim C9: the commitment reduction of any 256-bit digest, the digest as a big-endian unsigned integer taken modulo the BN254 field modulus, is strictly below the modulus. -/
theorem sha256_to_field_lt_modulus (digest : Nat) (_h : digest < 2 ^ 256) :
    __sha256_to_field digest < BN254_MODULUS := by
  have hpos : 0 < BN254_MODULUS := by norm_num [BN254_MODULUS]
  exact Nat.mod_lt _ hpos

/-- Witness for C9: the reduction of the all-ones digest 2 ^ 256 - 1 lies below the modulus. -/
theorem sha256_to_field_lt_modulus_witness :
    __sha256_to_field (2 ^ 256 - 1) < BN254_MODULUS :=
  sha256_to_field_lt_modulus (2 ^ 256 - 1) (by norm_num)

/-- A returned error from execute_instruction always leaves the carried state halted, because tick sets the flag before propagating. -/
theorem execWrap_fail_halted {t : VM} {raw : Nat} {e : VMError} {s' : VM}
    (h : execWrap t raw = .fail e s') : s'.halted = true := by
  unfold execWrap at h
  cases hex : execute_instruction t raw <;> rw [hex] at h
  · exact ExecOut.noConfusion h
  · injection h with h1 h2
    rw [← h2]
  · exact ExecOut.noConfusion h

/-- Claim C4 (counterexample): a tick whose program-counter advance overflows the 16-bit range returns an Overflow execution error while leaving the machine un-halted, so not every error-returning tick halts the VM. -/
theorem tick_overflow_error_leaves_running :
    (tick overflowVM).failInfo = some (VMError.Overflow, false) := by
  decide

/-- Claim C4 (amended): on any state binding RPC and RIR, a tick on a halted machine returns the Halted error with the state unchanged (hence no side effect and no un-halting), and any other tick that returns an execution error leaves the machine halted, with the single exception of the program-counter Overflow error, which is returned with the machine still running. -/
theorem tick_halt_discipline (s : VM) (pcReg irReg : Register)
    (hpc : findReg s.registers RegisterId.RPC.id = some pcReg)
    (hir : findReg s.registers RegisterId.RIR.id = some irReg) :
    (s.halted = true → tick s = .fail .Halted s) ∧
    (∀ e s', tick s = .fail e s' → e = .Overflow ∨ s'.halted = true) := by
  constructor
  · intro h
    rw [tick, if_pos h]
  · intro e s' ht
    by_cases hh : s.halted = true
    · rw [tick, if_pos hh] at ht
      injection ht with h1 h2
      right
      rw [← h2]
      exact hh
    · rw [tick, if_neg hh] at ht
      simp only [hpc] at ht
      cases hr : read2 s.memory pcReg.value with
      | none =>
          rw [hr] at ht
          exact ExecOut.noConfusion ht
      | some raw =>
          rw [hr] at ht
          have h5 : findReg (updateReg s.registers RegisterId.RIR.id ⟨irReg.id, raw⟩)
              RegisterId.RPC.id = some pcReg := by
            rw [findReg_updateReg_ne (by decide), hpc]
          simp only [hir, h5] at ht
          by_cases hov : pcReg.value + 2 < 65536
          · rw [if_pos hov] at ht
            right
            exact execWrap_fail_halted ht
          · rw [if_neg hov] at ht
            injection ht with h1 h2
            left
            exact h1.symm

/-- Witness for C4: on a concrete halted machine, tick returns the Halted error with the state unchanged. -/
theorem tick_halt_discipline_witness :
    tick { VM.new with halted := true } = .fail .Halted { VM.new with halted := true } :=
  (tick_halt_discipline { VM.new with halted := true }
    ⟨RegisterId.RPC, START_ADDRESS⟩ ⟨RegisterId.RIR, 0⟩ (by decide) (by decide)).1 rfl

/-- write2 never changes the memory capacity. -/
theorem write2_size (m : LinearMemory) (a v : Nat) : (write2 m a v).2.size = m.size := by
  by_cases h1 : a < m.size
  · by_cases h2 : (a + 1) % 65536 < m.size
    · simp [write2, LinearMemory.write, h1, h2]
    · simp [write2, LinearMemory.write, h1, h2]
  · simp [write2, LinearMemory.write, h1]

/-- write2 changes no byte outside the two addressed cells. -/
theorem write2_bytes_other (m : LinearMemory) (a v i : Nat)
    (h1 : i ≠ a) (h2 : i ≠ (a + 1) % 65536) :
    (write2 m a v).2.bytes i = m.bytes i := by
  by_cases ha : a < m.size <;> by_cases hb : (a + 1) % 65536 < m.size <;>
    simp [write2, LinearMemory.write, ha, hb, h1, h2]

/-- A fully in-bounds write2 succeeds and commits the two little-endian bytes. -/
theorem write2_spec_success (m : LinearMemory) (a v : Nat)
    (ha : a < m.size) (hb : (a + 1) % 65536 < m.size) :
    (write2 m a v).1 = none ∧
    (write2 m a v).2.bytes a = v % 256 ∧
    (write2 m a v).2.bytes ((a + 1) % 65536) = v / 256 % 256 := by
  have hne : ¬ a = (a + 1) % 65536 := by omega
  simp [write2, LinearMemory.write, ha, hb, hne]

/-- A write2 whose second cell is out of bounds fails after committing only the low byte. -/
theorem write2_spec_fail_high (m : LinearMemory) (a v : Nat)
    (ha : a < m.size) (hb : ¬ (a + 1) % 65536 < m.size) :
    (write2 m a v).1 = some VMError.OutOfBounds ∧
    (write2 m a v).2.size = m.size ∧
    (write2 m a v).2.bytes a = v % 256 ∧
    ∀ i, i ≠ a → (write2 m a v).2.bytes i = m.bytes i := by
  refine ⟨?_, ?_, ?_, ?_⟩ <;>
    simp [write2, LinearMemory.write, ha, hb]
  intro i hi
  simp [hi]

/-- An in-bounds read2 recombines the two addressed bytes little-endian. -/
theorem read2_eval (m : LinearMemory) (a : Nat)
    (ha : a < m.size) (hb : (a + 1) % 65536 < m.size) :
    read2 m a = some (m.bytes a ||| m.bytes ((a + 1) % 65536) <<< 8) := by
  simp [read2, LinearMemory.read, ha, hb]

/-- Splitting a 16-bit value into its low and high bytes and recombining them little-endian restores the value. -/
theorem bytes_lor_recombine (v : Nat) (hv : v < 65536) :
    v % 256 ||| (v / 256 % 256) <<< 8 = v := by
  rw [lor_shiftLeft_eq_add 8 _ _ (by omega), Nat.shiftLeft_eq]
  omega

/-- Claim C8: for an in-bounds address, write2 followed by read2 returns exactly the written 16-bit value whenever the successor cell is also in bounds; when the successor cell is out of bounds, write2 short-circuits on the failing high-byte write, returning OutOfBounds with only the low byte committed — no byte outside the addressed cell, in particular none beyond the last valid byte, is ever written. -/
theorem write2_read2_roundtrip_and_short_circuit (m : LinearMemory) (a v : Nat)
    (_ha16 : a < 65536) (ha : a < m.size) (hv : v < 65536) :
    ((a + 1) % 65536 < m.size →
      (write2 m a v).1 = none ∧ read2 (write2 m a v).2 a = some v) ∧
    (m.size ≤ (a + 1) % 65536 →
      (write2 m a v).1 = some VMError.OutOfBounds ∧
      (write2 m a v).2.size = m.size ∧
      (write2 m a v).2.bytes a = v % 256 ∧
      ∀ i, i ≠ a → (write2 m a v).2.bytes i = m.bytes i) := by
  constructor
  · intro hb
    obtain ⟨h0, h1, h2⟩ := write2_spec_success m a v ha hb
    refine ⟨h0, ?_⟩
    rw [read2_eval _ _ (by rw [write2_size]; exact ha) (by rw [write2_size]; exact hb),
      h1, h2, bytes_lor_recombine v hv]
  · intro hb
    exact write2_spec_fail_high m a v ha (by omega)

/-- Witness for C8: a concrete in-bounds write of 0xABCD reads back as 0xABCD. -/
theorem write2_read2_roundtrip_witness :
    (write2 (LinearMemory.new 3) 1 0xABCD).1 = none ∧
    read2 (write2 (LinearMemory.new 3) 1 0xABCD).2 1 = some 0xABCD :=
  (write2_read2_roundtrip_and_short_circuit (LinearMemory.new 3) 1 0xABCD
    (by decide) (by decide) (by decide)).1 (by decide)

/-- Loading a program never changes the memory capacity. -/
theorem loadProgram_size : ∀ (ws : List Nat) (i : Nat) (m : LinearMemory),
    (loadProgram m ws i).size = m.size := by
  intro ws
  induction ws with
  | nil => intro i m; rfl
  | cons w t ih =>
      intro i m
      rw [loadProgram, ih, write2_size]

/-- Loading program words from slot i on leaves every byte below the slot's address unchanged, provided the whole program fits below the 16-bit wrap. -/
theorem loadProgram_bytes_low : ∀ (ws : List Nat) (i : Nat) (m : LinearMemory) (a : Nat),
    a < 2 * i + START_ADDRESS → 2 * i + START_ADDRESS + 2 * ws.length ≤ 65536 →
    (loadProgram m ws i).bytes a = m.bytes a := by
  have hSA : START_ADDRESS = 256 := rfl
  intro ws
  induction ws with
  | nil => intro i m a _ _; rfl
  | cons w t ih =>
      intro i m a hlt hbound
      rw [List.length_cons] at hbound
      rw [loadProgram, ih (i + 1) _ a (by omega) (by omega)]
      apply write2_bytes_other
      · omega
      · have hmod : (2 * i + START_ADDRESS + 1) % 65536 = 2 * i + START_ADDRESS + 1 := by
          omega
        omega

/-- Claim C10: the fixed output address targeted by STORE_OUT is START_ADDRESS = 0x100, the program load origin, so on any state whose memory holds a program loaded at the origin, the first program instruction word is readable at 0x100 and executing STORE_OUT overwrites it with the source register's value. -/
theorem store_out_overwrites_first_program_word
    (m : LinearMemory) (w : Nat) (rest : List Nat) (s : VM) (src_reg : Register)
    (hmem : s.memory = loadProgram m (w :: rest) 0)
    (hcap : START_ADDRESS + 2 ≤ m.size)
    (hbound : START_ADDRESS + 2 + 2 * rest.length ≤ 65536)
    (hw : w < 65536) (hv : src_reg.value < 65536) :
    START_ADDRESS = 0x100 ∧
    read2 s.memory START_ADDRESS = some w ∧
    read2 (vmStoreOut s src_reg).outState.memory START_ADDRESS = some src_reg.value := by
  have hSA : START_ADDRESS = 256 := rfl
  have hsz : s.memory.size = m.size := by
    rw [hmem, loadProgram_size]
  have hm1 := write2_spec_success m START_ADDRESS w (by omega)
    (by have : (START_ADDRESS + 1) % 65536 = START_ADDRESS + 1 := by omega
        omega)
  have hmod : (START_ADDRESS + 1) % 65536 = START_ADDRESS + 1 := by omega
  have hbytes : ∀ j, j < START_ADDRESS + 2 →
      s.memory.bytes j = (write2 m (2 * 0 + START_ADDRESS) w).2.bytes j := by
    intro j hj
    rw [hmem, loadProgram]
    exact loadProgram_bytes_low rest 1 _ j (by omega) (by omega)
  have hlow : s.memory.bytes START_ADDRESS = w % 256 := by
    rw [hbytes START_ADDRESS (by omega)]
    have h2 : (2 : Nat) * 0 + START_ADDRESS = START_ADDRESS := by omega
    rw [h2]
    exact hm1.2.1
  have hhigh : s.memory.bytes ((START_ADDRESS + 1) % 65536) = w / 256 % 256 := by
    rw [hbytes ((START_ADDRESS + 1) % 65536) (by omega)]
    have h2 : (2 : Nat) * 0 + START_ADDRESS = START_ADDRESS := by omega
    rw [h2]
    exact hm1.2.2
  refine ⟨rfl, ?_, ?_⟩
  · rw [read2_eval _ _ (by omega) (by omega), hlow, hhigh, bytes_lor_recombine w hw]
  · have hw2 := write2_spec_success s.memory START_ADDRESS src_reg.value
      (by omega) (by omega)
    have houtmem : (vmStoreOut s src_reg).outState.memory =
        (write2 s.memory START_ADDRESS src_reg.value).2 := by
      simp [vmStoreOut, ExecOut.outState]
    rw [houtmem,
      read2_eval _ _ (by rw [write2_size]; omega) (by rw [write2_size]; omega),
      hw2.2.1, hw2.2.2, bytes_lor_recombine src_reg.value hv]

/-- Witness for C10: in the concrete start_vm configuration the first program word 0x5605 sits at 0x100, and STORE_OUT from a register holding 8 overwrites it with 8. -/
theorem store_out_overwrites_witness :
    START_ADDRESS = 0x100 ∧
    read2 loadedVM.memory START_ADDRESS = some 0x5605 ∧
    read2 (vmStoreOut loadedVM ⟨RegisterId.RR0, 8⟩).outState.memory START_ADDRESS =
      some 8 :=
  store_out_overwrites_first_program_word (LinearMemory.new 5000) 0x5605
    [0x1060, 0x5603, 0x1160, 0x4010, 0x6000] loadedVM ⟨RegisterId.RR0, 8⟩
    rfl (by decide) (by decide) (by decide) (by decide)

/-- No opcode handler touches the trace buffer: whatever state a dispatch carries, its trace buffer is the dispatched state's. -/
theorem dispatchOpcode_stateTrace (op : Opcode) (s : VM) (src_reg dest_reg : Register) :
    (dispatchOpcode op s src_reg dest_reg).stateTraceIs s.trace_buffer := by
  cases op with
  | HALT => simp [dispatchOpcode, vmHalt, ExecOut.stateTraceIs]
  | WRITE => simp [dispatchOpcode, vmWrite, ExecOut.stateTraceIs]
  | COPY =>
      simp only [dispatchOpcode, vmCopy]
      cases findReg s.registers dest_reg.id.id <;> simp [ExecOut.stateTraceIs]
  | ADD =>
      simp only [dispatchOpcode, vmAdd]
      split
      · cases findReg s.registers dest_reg.id.id <;> simp [ExecOut.stateTraceIs]
      · simp [ExecOut.stateTraceIs]
  | LOAD =>
      simp only [dispatchOpcode, vmLoad]
      cases read2 s.memory src_reg.value with
      | none => simp [ExecOut.stateTraceIs]
      | some val =>
          cases findReg s.registers dest_reg.id.id <;> simp [ExecOut.stateTraceIs]
  | LOAD_IMM => simp [dispatchOpcode, ExecOut.stateTraceIs]
  | STORE_OUT => simp [dispatchOpcode, vmStoreOut, ExecOut.stateTraceIs]

/-- A traced execute_instruction that decodes successfully appends, before operand resolution, exactly one entry holding the current RPC value, the decoded opcode and fields, and the full register map at that moment; every state the outcome carries has that buffer. -/
theorem execute_instruction_stateTrace (s : VM) (instr : Nat) (op : Opcode)
    (pcReg : Register)
    (hop : Opcode.tryFrom (instr >>> 12 % 256) = .ok op)
    (htr : s.trace_enabled = true)
    (hpc : findReg s.registers RegisterId.RPC.id = some pcReg) :
    (execute_instruction s instr).stateTraceIs (s.trace_buffer ++
      [⟨pcReg.value, op, (instr &&& 0x0F00) >>> 8, (instr &&& 0x00F0) >>> 4,
        instr &&& 0x000F, s.registers⟩]) := by
  rw [execute_instruction, hop]
  simp only [htr, if_true, traceVM, hpc]
  cases hd : resolve_register_or_immediate s.registers ((instr &&& 0x0F00) >>> 8)
      (instr &&& 0x000F) with
  | error e => simp [ExecOut.stateTraceIs]
  | ok pr =>
      obtain ⟨dest_reg, b1⟩ := pr
      cases hs : resolve_register_or_immediate b1 ((instr &&& 0x00F0) >>> 4)
          (instr &&& 0x000F) with
      | error e => simp [hd, hs, ExecOut.stateTraceIs]
      | ok pr2 =>
          obtain ⟨src_reg, b2⟩ := pr2
          simp only [hd, hs]
          exact dispatchOpcode_stateTrace op _ src_reg dest_reg

/-- Wrapping the execute outcome with the halt-on-error rule preserves which trace buffer the carried state holds. -/
theorem execWrap_stateTrace {t : VM} {raw : Nat} {buf : List TraceEntry}
    (h : (execute_instruction t raw).stateTraceIs buf) :
    (execWrap t raw).stateTraceIs buf := by
  unfold execWrap
  cases hex : execute_instruction t raw <;> rw [hex] at h <;>
    simp_all [ExecOut.stateTraceIs]

/-- Claim C5 (counterexample): in the concrete traced run the fetch address is 0x100 (the RPC value before the tick), but the single entry recorded by the first tick stores program counter 0x102, the post-increment value, so the snapshot does not hold the program counter at fetch time. -/
theorem trace_entry_pc_is_not_fetch_address :
    findReg loadedVM.registers RegisterId.RPC.id = some ⟨RegisterId.RPC, 0x100⟩ ∧
    (tick loadedVM).tracePCList = [0x102] := by
  decide

/-- Claim C5 (amended): every entry recorded by a traced tick that fetches and decodes successfully snapshots the program counter after the fetch increment (the fetch address plus 2, i.e. the next instruction's address, not the fetch address itself), the decoded opcode, the destination, source and immediate fields, and a full copy of the register bank at that moment (instruction register and program counter already updated), and is appended before operand resolution, capturing the pre-resolution register state. -/
theorem trace_entry_snapshot_spec (s : VM) (pcReg irReg : Register) (raw : Nat)
    (op : Opcode)
    (hh : s.halted = false)
    (hpc : findReg s.registers RegisterId.RPC.id = some pcReg)
    (hraw : read2 s.memory pcReg.value = some raw)
    (hir : findReg s.registers RegisterId.RIR.id = some irReg)
    (hof : pcReg.value + 2 < 65536)
    (hop : Opcode.tryFrom (raw >>> 12 % 256) = .ok op)
    (htr : s.trace_enabled = true) :
    (tick s).stateTraceIs (s.trace_buffer ++
      [⟨pcReg.value + 2, op, (raw &&& 0x0F00) >>> 8, (raw &&& 0x00F0) >>> 4,
        raw &&& 0x000F,
        updateReg (updateReg s.registers RegisterId.RIR.id ⟨irReg.id, raw⟩)
          RegisterId.RPC.id ⟨pcReg.id, pcReg.value + 2⟩⟩]) := by
  have h5 : findReg (updateReg s.registers RegisterId.RIR.id ⟨irReg.id, raw⟩)
      RegisterId.RPC.id = some pcReg := by
    rw [findReg_updateReg_ne (by decide), hpc]
  rw [tick, if_neg (by simp [hh])]
  simp only [hpc, hraw, hir, h5]
  rw [if_pos hof]
  apply execWrap_stateTrace
  exact execute_instruction_stateTrace _ raw op ⟨pcReg.id, pcReg.value + 2⟩
    hop htr (findReg_updateReg_self h5)

/-- Witness for C5: the first tick of the concrete traced run appends exactly one entry with program counter 258 = 0x100 + 2, opcode LOAD_IMM, fields 6, 0 and 5, and the register bank with RIR holding the fetched word 0x5605 and RPC holding 258. -/
theorem trace_entry_snapshot_spec_witness :
    (tick loadedVM).stateTraceIs (loadedVM.trace_buffer ++
      [⟨258, Opcode.LOAD_IMM, 6, 0, 5,
        updateReg (updateReg loadedVM.registers RegisterId.RIR.id
          ⟨RegisterId.RIR, 0x5605⟩) RegisterId.RPC.id ⟨RegisterId.RPC, 258⟩⟩]) :=
  trace_entry_snapshot_spec loadedVM ⟨RegisterId.RPC, 0x100⟩ ⟨RegisterId.RIR, 0⟩
    0x5605 Opcode.LOAD_IMM rfl (by decide) (by decide) (by decide) (by decide)
    rfl rfl
